import Mathlib

/-!
Verification development for the faker locale-resolution and random-generation
substrate. The `Image` module definitions are translated from
`src/locale/es_MX.ts` (the `Image` class). The Random Engine, Locale Resolver
and Faker Context are not present in the examined sources; their definitions
are modelled from the specification and marked as such.
-/

/-- Error kinds of the core, as enumerated in the error-handling design. -/
inductive Err where
  | InvalidRangeError
  | EmptyInputError
  | MaxRetriesExceededError
  | UnresolvedPathError
  | UnknownLocaleError
  | MissingLocaleDataError
  deriving DecidableEq, Repr

/-- Modelled from the spec: the 32-bit state modulus of the Random Engine (the
seedable pseudo-random source is not among the examined source files). -/
def M32 : Nat := 4294967296

/-- Modelled from the spec: one state transition of the seedable pseudo-random
source, a linear-congruential step. -/
def engineStep (s : Nat) : Nat := (1664525 * s + 1013904223) % M32

/-- Modelled from the spec: `seed(value)` resets the internal state so that
subsequent draws are a deterministic function of the value and call order. -/
def seedEngine (v : Nat) : Nat := v % M32

/-- Modelled from the spec: the raw integer output of the engine at a given
state, the primitive underlying every derived operation. -/
def engineOut (s : Nat) : Nat := s

/-- Modelled from the spec: `arrayElement(list)` returns a uniformly chosen
element and fails with `EmptyInputError` on an empty list. -/
def arrayElement : List α → Nat → Except Err (α × Nat)
  | [], _ => .error .EmptyInputError
  | x :: xs, s =>
    .ok ((x :: xs).get ⟨engineOut s % (x :: xs).length, Nat.mod_lt _ (Nat.succ_pos _)⟩,
      engineStep s)

/-- Modelled from the spec: `intBetween(min, max)` returns an integer in the
inclusive range, failing with `InvalidRangeError` when min exceeds max. -/
def intBetween (lo hi : Int) (s : Nat) : Except Err (Int × Nat) :=
  if hi < lo then .error .InvalidRangeError
  else .ok (lo + (engineOut s : Int) % (hi - lo + 1), engineStep s)

/-- Modelled from the spec: cumulative-weight walk used by weighted selection. -/
def pickWeighted : List (α × Nat) → Nat → Option α
  | [], _ => none
  | (x, w) :: rest, r => if r < w then some x else pickWeighted rest (r - w)

/-- Modelled from the spec: `weightedArrayElement(weightedList)` selects with
probability proportional to weight, fails with `EmptyInputError` on empty
input, and treats an all-zero-weight list as uniform selection over entries. -/
def weightedArrayElement : List (α × Nat) → Nat → Except Err (α × Nat)
  | [], _ => .error .EmptyInputError
  | (x, w) :: rest, s =>
    let l := (x, w) :: rest
    let total := (l.map Prod.snd).sum
    if total = 0 then
      match arrayElement l s with
      | .ok (p, s2) => .ok (p.1, s2)
      | .error e => .error e
    else
      match pickWeighted l (engineOut s % total) with
      | some a => .ok (a, engineStep s)
      | none => .ok (x, engineStep s)

/-- Modelled from the spec: `uniqueArrayElement(list, maxRetries)` repeatedly
draws until a value outside the exclusion set is found or `maxRetries` is
exhausted, then fails with `MaxRetriesExceededError`. The second component
counts the draws actually performed. -/
def uniqueArrayElement [DecidableEq α] (xs excl : List α) :
    Nat → Nat → Except Err (α × Nat) × Nat
  | 0, _ => (.error .MaxRetriesExceededError, 0)
  | n + 1, s =>
    match arrayElement xs s with
    | .error e => (.error e, 0)
    | .ok (x, s2) =>
      if x ∈ excl then
        let r := uniqueArrayElement xs excl n s2
        (r.1, r.2 + 1)
      else (.ok (x, s2), 1)

/-- Modelled from the spec: `shuffle(list)` returns a new sequence with the
same elements in random order (Fisher–Yates, here in the equivalent
draw-without-replacement form), leaving the input unmodified. -/
def shuffle [DecidableEq α] (l : List α) (s : Nat) : List α × Nat :=
  if h : l = [] then ([], s)
  else
    let y := l.get ⟨engineOut s % l.length, Nat.mod_lt _ (List.length_pos.mpr h)⟩
    ((y :: (shuffle (l.erase y) (engineStep s)).1), (shuffle (l.erase y) (engineStep s)).2)
termination_by l.length
decreasing_by
  all_goals
    rw [List.length_erase_of_mem (List.get_mem l _ _)]
    have hl : 0 < l.length := List.length_pos.mpr h
    omega

/-- Modelled from the spec: `datatype.number()`, an engine-derived bounded
integer draw used by `imageUrl` when randomization is requested. -/
def datatypeNumber (s : Nat) : Nat × Nat := (engineOut s % 100000, engineStep s)

/-- An operation call against the Random Engine, for replay experiments. -/
inductive RandOp where
  | nextVal
  | intB (lo hi : Int)
  | pick (xs : List String)
  | shuf (xs : List String)

/-- The output of one Random Engine operation call. -/
inductive RandOut where
  | natOut (n : Nat)
  | intOut (r : Except Err Int)
  | strOut (r : Except Err String)
  | listOut (xs : List String)

/-- Runs a single Random Engine operation from a given state. -/
def runOp (s : Nat) : RandOp → RandOut × Nat
  | .nextVal => (.natOut (engineOut s), engineStep s)
  | .intB lo hi =>
    match intBetween lo hi s with
    | .ok (v, s2) => (.intOut (.ok v), s2)
    | .error e => (.intOut (.error e), s)
  | .pick xs =>
    match arrayElement xs s with
    | .ok (v, s2) => (.strOut (.ok v), s2)
    | .error e => (.strOut (.error e), s)
  | .shuf xs =>
    let p := shuffle xs s
    (.listOut p.1, p.2)

/-- Replays a sequence of operations from a given engine state, collecting the
output of every call in order. -/
def replayFrom (s : Nat) : List RandOp → List RandOut
  | [] => []
  | op :: ops =>
    let p := runOp s op
    p.1 :: replayFrom p.2 ops

/-- Replays a sequence of operations against a freshly seeded engine. -/
def replay (seedv : Nat) (ops : List RandOp) : List RandOut :=
  replayFrom (seedEngine seedv) ops

/-- Modelled from the spec: a Locale Table, a read-only tree whose nodes map
names to leaves, arrays of leaves, or further nested mappings. -/
inductive LocaleData where
  | leaf (s : String)
  | arr (xs : List String)
  | node (entries : List (String × LocaleData))

/-- Modelled from the spec: Locale Table `get(path)`, walking a key sequence
through the nested mapping, yielding the value or none. -/
def get : List String → LocaleData → Option LocaleData
  | [], d => some d
  | k :: ks, .node entries =>
    match entries.lookup k with
    | some d2 => get ks d2
    | none => none
  | _ :: _, .leaf _ => none
  | _ :: _, .arr _ => none

/-- Looks a path up in the table registered for one locale code. -/
def lookupLocale (tables : List (String × LocaleData)) (p : List String)
    (loc : String) : Option LocaleData :=
  (tables.lookup loc).bind (get p)

/-- Modelled from the spec: the linear scan of the Locale Resolver over a locale
list, returning the first defined value or `UnresolvedPathError`. -/
def resolve (tables : List (String × LocaleData)) (p : List String) :
    List String → Except Err LocaleData
  | [] => .error .UnresolvedPathError
  | loc :: rest =>
    match lookupLocale tables p loc with
    | some v => .ok v
    | none => resolve tables p rest

/-- Modelled from the spec: `resolve(path, primaryLocale, fallbackChain)` walks
the primary locale followed by the fallback chain. -/
def resolveChain (tables : List (String × LocaleData)) (p : List String)
    (primary : String) (chain : List String) : Except Err LocaleData :=
  resolve tables p (primary :: chain)

/-- The array stored at a path for one locale, or the empty list when the
locale does not define the path as an array. -/
def localeArr (tables : List (String × LocaleData)) (p : List String)
    (loc : String) : List String :=
  match lookupLocale tables p loc with
  | some (.arr xs) => xs
  | _ => []

/-- Modelled from the spec: `resolveMerged` concatenates the arrays found at a
path across every locale of the list that defines it, in list order, with no
deduplication. -/
def resolveMerged (tables : List (String × LocaleData)) (p : List String) :
    List String → List String
  | [] => []
  | loc :: rest => localeArr tables p loc ++ resolveMerged tables p rest

/-- Modelled from the spec: `resolveMerged(path, primaryLocale, fallbackChain)`
with the entries of the primary locale first. -/
def resolveMergedChain (tables : List (String × LocaleData)) (p : List String)
    (primary : String) (chain : List String) : List String :=
  resolveMerged tables p (primary :: chain)

/-- Modelled from the spec: the Faker Context aggregate, holding the locale
tables it was constructed with, the active locale, the fallback chain and the
Random Engine state. -/
structure FakerContext where
  locales : List (String × LocaleData)
  locale : String
  localeFallback : List String
  engine : Nat

/-- Modelled from the spec: `setLocale(code)` validates the code against the
constructed tables; on success the active locale is updated, on failure the
context is left unchanged and `UnknownLocaleError` is reported. -/
def setLocale (ctx : FakerContext) (code : String) : FakerContext × Option Err :=
  match ctx.locales.lookup code with
  | some _ => ({ ctx with locale := code }, none)
  | none => (ctx, some .UnknownLocaleError)

/-- Resolution as performed through a context: active locale first, then the
fallback chain. -/
def ctxResolve (ctx : FakerContext) (p : List String) : Except Err LocaleData :=
  resolve ctx.locales p (ctx.locale :: ctx.localeFallback)

/-- JavaScript string interpolation of an optional number: an omitted value
prints as the text undefined. From the template literals in `dataUri`. -/
def jsOptIntStr : Option Int → String
  | none => "undefined"
  | some n => toString n

/-- JavaScript string interpolation of `w / 2` for an optional number: an
omitted value yields NaN, an odd value a decimal point five. From the text
coordinates in `dataUri`. -/
def jsHalfStr : Option Int → String
  | none => "NaN"
  | some n =>
    let m := n.natAbs
    (if n < 0 ∧ m ≠ 0 then "-" else "") ++ toString (m / 2) ++
      (if m % 2 = 1 then ".5" else "")

/-- Uppercase hexadecimal digit for a value below 16. -/
def hexDigit (n : Nat) : Char := if n < 10 then Char.ofNat (48 + n) else Char.ofNat (55 + n)

/-- Percent-encoding of one byte, as three characters. -/
def encByte (b : Nat) : List Char := [Char.ofNat 37, hexDigit (b / 16), hexDigit (b % 16)]

/-- UTF-8 byte sequence of a Unicode code point. -/
def utf8Bytes (n : Nat) : List Nat :=
  if n < 128 then [n]
  else if n < 2048 then [192 + n / 64, 128 + n % 64]
  else if n < 65536 then [224 + n / 4096, 128 + (n / 64) % 64, 128 + n % 64]
  else [240 + n / 262144, 128 + (n / 4096) % 64, 128 + (n / 64) % 64, 128 + n % 64]

/-- The code points `encodeURIComponent` leaves unescaped: letters, digits,
and the nine marks of RFC 2396. -/
def uriUnescaped (n : Nat) : Bool :=
  (65 ≤ n && n ≤ 90) || (97 ≤ n && n ≤ 122) || (48 ≤ n && n ≤ 57) ||
    n == 45 || n == 95 || n == 46 || n == 33 || n == 126 || n == 42 ||
    n == 39 || n == 40 || n == 41

/-- Encoding of one character under `encodeURIComponent`. -/
def encChar (c : Char) : List Char :=
  if uriUnescaped c.toNat then [c]
  else List.flatten ((utf8Bytes c.toNat).map encByte)

/-- The JavaScript `encodeURIComponent` built-in used by `dataUri`. -/
def encodeURIComponent (s : String) : String :=
  String.mk (List.flatten (s.data.map encChar))

/-- Whether the second list occurs contiguously at the head of the first. -/
def hasPre : List Char → List Char → Bool
  | [], _ => true
  | _ :: _, [] => false
  | p :: ps, c :: cs => p == c && hasPre ps cs

/-- Whether a pattern occurs contiguously anywhere inside a list. -/
def containsSub (pat : List Char) : List Char → Bool
  | [] => pat.isEmpty
  | c :: cs => hasPre pat (c :: cs) || containsSub pat cs

/-- Whether one string contains another as a contiguous substring. -/
def strContains (s pat : String) : Bool := containsSub pat.data s.data

/-- Whether one string begins with another. -/
def strStarts (s pat : String) : Bool := hasPre pat.data s.data

namespace Image

/-- From `Image.imageUrl` in the source: builds the placeholder URL, with
falsy width and height replaced by 640 and 480, an https scheme exactly when
the https flag is strictly true, a category segment exactly when a category is
given, and a numeric query suffix when randomization is truthy. -/
def imageUrl (s : Nat) (width height : Option Int) (category : Option String)
    (randomize : Option Bool) (https : Option Bool) : String × Nat :=
  let w : Int := match width with
    | some n => if n = 0 then 640 else n
    | none => 640
  let h : Int := match height with
    | some n => if n = 0 then 480 else n
    | none => 480
  let protocol : String := if https = some true then "https://" else "http://"
  let url1 : String := protocol ++ "placeimg.com/" ++ toString w ++ "/" ++ toString h
  let url2 : String := match category with
    | some c => url1 ++ "/" ++ c
    | none => url1
  match randomize with
  | some true => (url2 ++ "?" ++ toString (datatypeNumber s).1, (datatypeNumber s).2)
  | _ => (url2, s)

/-- From `Image.abstract` in the source. -/
def abstract (s : Nat) (w h : Option Int) (r : Option Bool) : String × Nat :=
  imageUrl s w h (some "abstract") r none

/-- From `Image.animals` in the source. -/
def animals (s : Nat) (w h : Option Int) (r : Option Bool) : String × Nat :=
  imageUrl s w h (some "animals") r none

/-- From `Image.business` in the source. -/
def business (s : Nat) (w h : Option Int) (r : Option Bool) : String × Nat :=
  imageUrl s w h (some "business") r none

/-- From `Image.cats` in the source. -/
def cats (s : Nat) (w h : Option Int) (r : Option Bool) : String × Nat :=
  imageUrl s w h (some "cats") r none

/-- From `Image.city` in the source. -/
def city (s : Nat) (w h : Option Int) (r : Option Bool) : String × Nat :=
  imageUrl s w h (some "city") r none

/-- From `Image.food` in the source. -/
def food (s : Nat) (w h : Option Int) (r : Option Bool) : String × Nat :=
  imageUrl s w h (some "food") r none

/-- From `Image.nightlife` in the source. -/
def nightlife (s : Nat) (w h : Option Int) (r : Option Bool) : String × Nat :=
  imageUrl s w h (some "nightlife") r none

/-- From `Image.fashion` in the source. -/
def fashion (s : Nat) (w h : Option Int) (r : Option Bool) : String × Nat :=
  imageUrl s w h (some "fashion") r none

/-- From `Image.people` in the source. -/
def people (s : Nat) (w h : Option Int) (r : Option Bool) : String × Nat :=
  imageUrl s w h (some "people") r none

/-- From `Image.nature` in the source. -/
def nature (s : Nat) (w h : Option Int) (r : Option Bool) : String × Nat :=
  imageUrl s w h (some "nature") r none

/-- From `Image.sports` in the source. -/
def sports (s : Nat) (w h : Option Int) (r : Option Bool) : String × Nat :=
  imageUrl s w h (some "sports") r none

/-- From `Image.technics` in the source. -/
def technics (s : Nat) (w h : Option Int) (r : Option Bool) : String × Nat :=
  imageUrl s w h (some "technics") r none

/-- From `Image.transport` in the source. -/
def transport (s : Nat) (w h : Option Int) (r : Option Bool) : String × Nat :=
  imageUrl s w h (some "transport") r none

/-- The category list of `Image.image` in the source. -/
def categories : List String :=
  ["abstract", "animals", "business", "cats", "city", "food", "nightlife",
   "fashion", "people", "nature", "sports", "technics", "transport"]

/-- The dynamic dispatch of `Image.image` in the source: the drawn category
name selects the category method of that name. -/
def dispatch (c : String) (s : Nat) (w h : Option Int) (r : Option Bool) :
    String × Nat :=
  if c = "abstract" then abstract s w h r
  else if c = "animals" then animals s w h r
  else if c = "business" then business s w h r
  else if c = "cats" then cats s w h r
  else if c = "city" then city s w h r
  else if c = "food" then food s w h r
  else if c = "nightlife" then nightlife s w h r
  else if c = "fashion" then fashion s w h r
  else if c = "people" then people s w h r
  else if c = "nature" then nature s w h r
  else if c = "sports" then sports s w h r
  else if c = "technics" then technics s w h r
  else if c = "transport" then transport s w h r
  else ("", s)

/-- From `Image.image` in the source: draws a category with `arrayElement`
and invokes the category method of that name. -/
def image (s : Nat) (w h : Option Int) (r : Option Bool) :
    Except Err (String × Nat) :=
  match arrayElement categories s with
  | .error e => .error e
  | .ok (c, s2) => .ok (dispatch c s2 w h r)

/-- From `Image.dataUri` in the source: builds the svg data URI, interpolating
the raw width and height (no defaulting) and the colour, then applying
`encodeURIComponent`. -/
def dataUri (width height : Option Int) (color : String := "grey") : String :=
  let svgString : String :=
    "<svg xmlns=\"http://www.w3.org/2000/svg\" version=\"1.1\" baseProfile=\"full\" width=\"" ++
    jsOptIntStr width ++ "\" height=\"" ++ jsOptIntStr height ++
    "\"><rect width=\"100%\" height=\"100%\" fill=\"" ++ color ++
    "\"/><text x=\"" ++ jsHalfStr width ++ "\" y=\"" ++ jsHalfStr height ++
    "\" font-size=\"20\" alignment-baseline=\"middle\" text-anchor=\"middle\" fill=\"white\">" ++
    jsOptIntStr width ++ "x" ++ jsOptIntStr height ++ "</text></svg>"
  "data:image/svg+xml;charset=UTF-8," ++ encodeURIComponent svgString

end Image

/-- C1: for every seed and every finite sequence of Random Engine operation
calls, replaying the sequence against a freshly seeded engine with that seed
twice yields two identical output sequences, value for value in order. -/
theorem replay_deterministic (s1 s2 : Nat) (O1 O2 : List RandOp)
    (hs : s1 = s2) (hO : O1 = O2) : replay s1 O1 = replay s2 O2 := by
  subst hs
  subst hO
  rfl

/-- Witness for C1 at a concrete seed and operation sequence. -/
theorem replay_deterministic_witness :
    replay 42 [RandOp.nextVal, RandOp.intB 1 6, RandOp.pick ["a", "b"], RandOp.shuf ["x", "y"]] =
      replay 42 [RandOp.nextVal, RandOp.intB 1 6, RandOp.pick ["a", "b"], RandOp.shuf ["x", "y"]] :=
  replay_deterministic 42 42 _ _ rfl rfl

/-- C4: for min at most max, `intBetween` returns an integer inside the
inclusive range, both bounds being attainable at some engine state; for
min above max it fails with `InvalidRangeError`. -/
theorem intBetween_inclusive_range_spec (lo hi : Int) (s : Nat) :
    (lo ≤ hi → ∃ v s2, intBetween lo hi s = Except.ok (v, s2) ∧ lo ≤ v ∧ v ≤ hi) ∧
    (lo ≤ hi →
      (∃ sa s2, intBetween lo hi sa = Except.ok (lo, s2)) ∧
      (∃ sb s2, intBetween lo hi sb = Except.ok (hi, s2))) ∧
    (hi < lo → intBetween lo hi s = Except.error Err.InvalidRangeError) := by
  refine ⟨?_, ⟨?_, ?_⟩⟩
  · intro hle
    refine ⟨lo + (engineOut s : Int) % (hi - lo + 1), engineStep s, ?_, ?_, ?_⟩
    · simp [intBetween, not_lt.mpr hle]
    · have h1 : 0 ≤ (engineOut s : Int) % (hi - lo + 1) :=
        Int.emod_nonneg _ (by omega)
      omega
    · have h2 : (engineOut s : Int) % (hi - lo + 1) < hi - lo + 1 :=
        Int.emod_lt_of_pos _ (by omega)
      omega
  · intro hle
    constructor
    · refine ⟨0, engineStep 0, ?_⟩
      simp [intBetween, not_lt.mpr hle, engineOut]
    · refine ⟨(hi - lo).toNat, engineStep (hi - lo).toNat, ?_⟩
      have hcast : (((hi - lo).toNat : Nat) : Int) = hi - lo :=
        Int.toNat_of_nonneg (by omega)
      simp only [intBetween, if_neg (not_lt.mpr hle), engineOut, hcast,
        Except.ok.injEq, Prod.mk.injEq, and_true]
      rw [Int.emod_eq_of_lt (by omega) (by omega)]
      omega
  · intro hgt
    simp [intBetween, hgt]

/-- Witness for C4 at the concrete ranges zero to five and five to zero. -/
theorem intBetween_inclusive_range_spec_witness :
    (∃ v s2, intBetween 0 5 3 = Except.ok (v, s2) ∧ 0 ≤ v ∧ v ≤ 5) ∧
      intBetween 5 0 3 = Except.error Err.InvalidRangeError :=
  ⟨(intBetween_inclusive_range_spec 0 5 3).1 (by decide),
    (intBetween_inclusive_range_spec 5 0 3).2.2 (by decide)⟩

/-- C5: `setLocale` on a code outside the constructed tables fails with
`UnknownLocaleError` and leaves the context, its active locale, and all
subsequent resolutions unchanged; on a known code it updates the active
locale used by subsequent resolutions. -/
theorem setLocale_unknown_locale_spec (ctx : FakerContext) (code : String) :
    (ctx.locales.lookup code = none →
      setLocale ctx code = (ctx, some Err.UnknownLocaleError) ∧
      (setLocale ctx code).1.locale = ctx.locale ∧
      ∀ p, ctxResolve (setLocale ctx code).1 p = ctxResolve ctx p) ∧
    (∀ t, ctx.locales.lookup code = some t →
      (setLocale ctx code).2 = none ∧
      (setLocale ctx code).1.locale = code ∧
      ∀ p, ctxResolve (setLocale ctx code).1 p =
        resolve ctx.locales p (code :: ctx.localeFallback)) := by
  constructor
  · intro hnone
    simp [setLocale, hnone]
  · intro t hsome
    simp [setLocale, hsome, ctxResolve]

/-- Witness for C5: a context over `en` and `es_MX` rejects the code xx_YY
unchanged and accepts a switch to `es_MX`. -/
theorem setLocale_unknown_locale_spec_witness :
    (setLocale ⟨[("en", LocaleData.node []), ("es_MX", LocaleData.node [])], "en", ["en"], 0⟩
        "xx_YY" =
      (⟨[("en", LocaleData.node []), ("es_MX", LocaleData.node [])], "en", ["en"], 0⟩,
        some Err.UnknownLocaleError)) ∧
    (setLocale ⟨[("en", LocaleData.node []), ("es_MX", LocaleData.node [])], "en", ["en"], 0⟩
        "es_MX").1.locale = "es_MX" :=
  ⟨((setLocale_unknown_locale_spec
      ⟨[("en", LocaleData.node []), ("es_MX", LocaleData.node [])], "en", ["en"], 0⟩
      "xx_YY").1 rfl).1,
    ((setLocale_unknown_locale_spec
      ⟨[("en", LocaleData.node []), ("es_MX", LocaleData.node [])], "en", ["en"], 0⟩
      "es_MX").2 (LocaleData.node []) rfl).2.1⟩

/-- C6: `uniqueArrayElement` performs at most `maxRetries` draws, and when the
list is non-empty and every element of it lies in the exclusion set it fails
with `MaxRetriesExceededError` instead of looping. -/
theorem uniqueArrayElement_bounded_retries_spec [DecidableEq α]
    (xs excl : List α) (n s : Nat) :
    (uniqueArrayElement xs excl n s).2 ≤ n ∧
    (xs ≠ [] → (∀ x ∈ xs, x ∈ excl) →
      (uniqueArrayElement xs excl n s).1 = Except.error Err.MaxRetriesExceededError) := by
  induction n generalizing s with
  | zero => exact ⟨Nat.le_refl 0, fun _ _ => rfl⟩
  | succ n ih =>
    cases xs with
    | nil =>
      refine ⟨?_, fun hne _ => absurd rfl hne⟩
      simp [uniqueArrayElement, arrayElement]
    | cons x xs' =>
      by_cases hy :
          (x :: xs').get ⟨engineOut s % (x :: xs').length, Nat.mod_lt _ (Nat.succ_pos _)⟩ ∈ excl
      · constructor
        · simp only [uniqueArrayElement, arrayElement, if_pos hy]
          exact Nat.succ_le_succ (ih (engineStep s)).1
        · intro hne hall
          simp only [uniqueArrayElement, arrayElement, if_pos hy]
          exact (ih (engineStep s)).2 hne hall
      · constructor
        · simp only [uniqueArrayElement, arrayElement, if_neg hy]
          exact Nat.succ_le_succ (Nat.zero_le n)
        · intro _ hall
          exact absurd (hall _ (List.get_mem _ _ _)) hy

/-- Witness for C6: with both elements already excluded and three retries, the
call fails with `MaxRetriesExceededError` after at most three draws. -/
theorem uniqueArrayElement_bounded_retries_spec_witness :
    (uniqueArrayElement ["a", "b"] ["a", "b"] 3 0).1 =
        Except.error Err.MaxRetriesExceededError ∧
      (uniqueArrayElement ["a", "b"] ["a", "b"] 3 0).2 ≤ 3 :=
  ⟨(uniqueArrayElement_bounded_retries_spec ["a", "b"] ["a", "b"] 3 0).2
      (by decide) (by decide),
    (uniqueArrayElement_bounded_retries_spec ["a", "b"] ["a", "b"] 3 0).1⟩

/-- The linear scan of the resolver returns exactly the first defined lookup. -/
theorem resolve_eq_findSome (tables : List (String × LocaleData)) (p : List String) :
    ∀ locs : List String,
      resolve tables p locs =
        match locs.findSome? (lookupLocale tables p) with
        | some v => Except.ok v
        | none => Except.error Err.UnresolvedPathError := by
  intro locs
  induction locs with
  | nil => rfl
  | cons loc rest ih =>
    simp only [resolve, List.findSome?]
    cases h : lookupLocale tables p loc with
    | some v => simp [h]
    | none => simp [h, ih]

/-- C2: `resolve` walks the primary locale then the fallback chain in order
and returns the first defined result of the table lookup; when the primary
locale defines the path the fallback chain is never consulted, and when no
locale in the chain defines it the call fails with `UnresolvedPathError`. -/
theorem resolve_first_defined_spec (tables : List (String × LocaleData))
    (p : List String) (primary : String) (chain : List String) :
    (resolveChain tables p primary chain =
      match (primary :: chain).findSome? (lookupLocale tables p) with
      | some v => Except.ok v
      | none => Except.error Err.UnresolvedPathError) ∧
    (∀ v, lookupLocale tables p primary = some v →
      resolveChain tables p primary chain = Except.ok v) ∧
    ((∀ loc ∈ primary :: chain, lookupLocale tables p loc = none) →
      resolveChain tables p primary chain = Except.error Err.UnresolvedPathError) := by
  refine ⟨resolve_eq_findSome tables p (primary :: chain), ?_, ?_⟩
  · intro v hv
    simp [resolveChain, resolve, hv]
  · intro hall
    rw [resolveChain, resolve_eq_findSome tables p (primary :: chain)]
    rw [List.findSome?_eq_none_iff.mpr hall]

/-- Witness for C2: a primary locale that defines the path wins outright, and
a path defined nowhere yields `UnresolvedPathError`. -/
theorem resolve_first_defined_spec_witness :
    resolveChain
        [("es_MX",
          LocaleData.node [("address", LocaleData.node
            [("city_name", LocaleData.arr ["Guadalajara"])])]),
         ("en",
          LocaleData.node [("address", LocaleData.node
            [("city_name", LocaleData.arr ["Springfield", "Shelbyville"])])])]
        ["address", "city_name"] "es_MX" ["en"] =
      Except.ok (LocaleData.arr ["Guadalajara"]) ∧
    resolveChain
        [("es_MX",
          LocaleData.node [("address", LocaleData.node
            [("city_name", LocaleData.arr ["Guadalajara"])])]),
         ("en",
          LocaleData.node [("address", LocaleData.node
            [("city_name", LocaleData.arr ["Springfield", "Shelbyville"])])])]
        ["address", "city_missing"] "es_MX" ["en"] =
      Except.error Err.UnresolvedPathError :=
  ⟨((resolve_first_defined_spec _ ["address", "city_name"] "es_MX" ["en"]).2.1
      (LocaleData.arr ["Guadalajara"]) rfl),
    ((resolve_first_defined_spec _ ["address", "city_missing"] "es_MX" ["en"]).2.2
      (by intro loc hloc; fin_cases hloc <;> rfl))⟩

/-- The merged resolver is the concatenation of the per-locale arrays. -/
theorem resolveMerged_eq_flatten (tables : List (String × LocaleData))
    (p : List String) :
    ∀ locs : List String,
      resolveMerged tables p locs = (locs.map (localeArr tables p)).flatten := by
  intro locs
  induction locs with
  | nil => rfl
  | cons loc rest ih => simp [resolveMerged, ih]

/-- C3: `resolveMerged` returns the concatenation of the arrays found at the
path in every locale of the chain that defines it, the entries of the primary
locale first, the internal order of each locale preserved, nothing removed. -/
theorem resolveMerged_concatenation_spec (tables : List (String × LocaleData))
    (p : List String) (primary : String) (chain : List String) :
    resolveMergedChain tables p primary chain =
      localeArr tables p primary ++ (chain.map (localeArr tables p)).flatten ∧
    resolveMergedChain tables p primary chain =
      ((primary :: chain).map (localeArr tables p)).flatten := by
  constructor
  · rw [resolveMergedChain, resolveMerged]
    rw [resolveMerged_eq_flatten tables p chain]
  · exact resolveMerged_eq_flatten tables p (primary :: chain)

/-- C7: `weightedArrayElement` fails with `EmptyInputError` on an empty list,
and on a non-empty all-zero-weight list returns, without failing, the entry
at the uniform index, every index being attainable at some engine state. -/
theorem weightedArrayElement_zero_weight_policy_spec :
    (∀ s : Nat,
      weightedArrayElement ([] : List (String × Nat)) s = Except.error Err.EmptyInputError) ∧
    (∀ (xs : List (String × Nat)) (s : Nat), xs ≠ [] → (∀ q ∈ xs, q.2 = 0) →
      (∃ i : Fin xs.length,
        weightedArrayElement xs s = Except.ok ((xs.get i).1, engineStep s) ∧
        (i : Nat) = engineOut s % xs.length) ∧
      (∀ j : Fin xs.length, ∃ s2 : Nat,
        weightedArrayElement xs s2 = Except.ok ((xs.get j).1, engineStep s2))) := by
  constructor
  · intro s
    rfl
  · intro xs s hne hall
    have hz : ∀ (l : List (String × Nat)), (∀ q ∈ l, q.2 = 0) → (l.map Prod.snd).sum = 0 := by
      intro l hl
      apply List.sum_eq_zero
      intro z hzz
      rcases List.mem_map.mp hzz with ⟨q, hq, rfl⟩
      exact hl q hq
    cases xs with
    | nil => exact absurd rfl hne
    | cons x rest =>
      obtain ⟨a, w⟩ := x
      have htot : (((a, w) :: rest).map Prod.snd).sum = 0 := hz _ hall
      constructor
      · refine ⟨⟨engineOut s % ((a, w) :: rest).length, Nat.mod_lt _ (Nat.succ_pos _)⟩, ?_, rfl⟩
        simp only [weightedArrayElement, htot, if_pos, arrayElement]
      · intro j
        refine ⟨(j : Nat), ?_⟩
        have hidx : (⟨engineOut (j : Nat) % ((a, w) :: rest).length,
            Nat.mod_lt _ (Nat.succ_pos _)⟩ : Fin ((a, w) :: rest).length) = j :=
          Fin.ext (by simp [engineOut, Nat.mod_eq_of_lt j.isLt])
        simp only [weightedArrayElement, htot, if_pos, arrayElement, hidx]

/-- Witness for C7: the empty list fails, and an all-zero two-entry list
yields an entry of the list at a concrete state. -/
theorem weightedArrayElement_zero_weight_policy_spec_witness :
    weightedArrayElement ([] : List (String × Nat)) 0 = Except.error Err.EmptyInputError ∧
    (∃ i : Fin ([("a", 0), ("b", 0)] : List (String × Nat)).length,
      weightedArrayElement ([("a", 0), ("b", 0)] : List (String × Nat)) 5 =
        Except.ok ((([("a", 0), ("b", 0)] : List (String × Nat)).get i).1, engineStep 5) ∧
      (i : Nat) = engineOut 5 % ([("a", 0), ("b", 0)] : List (String × Nat)).length) :=
  ⟨weightedArrayElement_zero_weight_policy_spec.1 0,
    (weightedArrayElement_zero_weight_policy_spec.2 [("a", 0), ("b", 0)] 5
      (by decide) (by decide)).1⟩

/-- The shuffled sequence is a permutation of the input, by strong induction
on the length bound. -/
theorem shuffle_perm_of_le [DecidableEq α] :
    ∀ (n : Nat) (l : List α) (s : Nat), l.length ≤ n → (shuffle l s).1.Perm l := by
  intro n
  induction n with
  | zero =>
    intro l s h
    have hnil : l = [] := List.eq_nil_of_length_eq_zero (Nat.le_zero.mp h)
    subst hnil
    simp [shuffle]
  | succ n ih =>
    intro l s h
    by_cases hl : l = []
    · subst hl
      simp [shuffle]
    · rw [shuffle]
      simp only [dif_neg hl]
      have hy : l.get ⟨engineOut s % l.length, Nat.mod_lt _ (List.length_pos.mpr hl)⟩ ∈ l :=
        List.get_mem _ _ _
      have hlen : (l.erase (l.get ⟨engineOut s % l.length,
          Nat.mod_lt _ (List.length_pos.mpr hl)⟩)).length ≤ n := by
        rw [List.length_erase_of_mem hy]
        have := List.length_pos.mpr hl
        omega
      exact ((ih _ _ hlen).cons _).trans (List.perm_cons_erase hy).symm

/-- C8: `shuffle` returns a sequence holding the same multiset of elements as
the input, of the same length; the input list itself is a value the call
cannot modify. -/
theorem shuffle_permutation_spec [DecidableEq α] (l : List α) (s : Nat) :
    ((shuffle l s).1 : Multiset α) = (l : Multiset α) ∧
    (shuffle l s).1.length = l.length := by
  have hp : (shuffle l s).1.Perm l := shuffle_perm_of_le l.length l s (Nat.le_refl _)
  exact ⟨Multiset.coe_eq_coe.mpr hp, hp.length_eq⟩

/-- Every name in the category list dispatches to the category method of that
name, which delegates to the templated URL builder. -/
theorem dispatch_funnels (c : String) (hc : c ∈ Image.categories)
    (s : Nat) (w h : Option Int) (r : Option Bool) :
    Image.dispatch c s w h r = Image.imageUrl s w h (some c) r none := by
  fin_cases hc <;> rfl

/-- C9: each of the thirteen per-category image methods returns exactly the
templated builder applied to its category name, and `image` returns the
result of the category method drawn by `arrayElement` over the category
list. -/
theorem image_category_funnel_spec (s : Nat) (w h : Option Int) (r : Option Bool) :
    (∀ c ∈ Image.categories,
      Image.dispatch c s w h r = Image.imageUrl s w h (some c) r none) ∧
    Image.abstract s w h r = Image.imageUrl s w h (some "abstract") r none ∧
    Image.animals s w h r = Image.imageUrl s w h (some "animals") r none ∧
    Image.business s w h r = Image.imageUrl s w h (some "business") r none ∧
    Image.cats s w h r = Image.imageUrl s w h (some "cats") r none ∧
    Image.city s w h r = Image.imageUrl s w h (some "city") r none ∧
    Image.food s w h r = Image.imageUrl s w h (some "food") r none ∧
    Image.nightlife s w h r = Image.imageUrl s w h (some "nightlife") r none ∧
    Image.fashion s w h r = Image.imageUrl s w h (some "fashion") r none ∧
    Image.people s w h r = Image.imageUrl s w h (some "people") r none ∧
    Image.nature s w h r = Image.imageUrl s w h (some "nature") r none ∧
    Image.sports s w h r = Image.imageUrl s w h (some "sports") r none ∧
    Image.technics s w h r = Image.imageUrl s w h (some "technics") r none ∧
    Image.transport s w h r = Image.imageUrl s w h (some "transport") r none ∧
    (∃ c ∈ Image.categories,
      Image.image s w h r = Except.ok (Image.dispatch c (engineStep s) w h r)) := by
  refine ⟨fun c hc => dispatch_funnels c hc s w h r,
    rfl, rfl, rfl, rfl, rfl, rfl, rfl, rfl, rfl, rfl, rfl, rfl, rfl, ?_⟩
  exact ⟨Image.categories.get
      ⟨engineOut s % Image.categories.length, Nat.mod_lt _ (Nat.succ_pos _)⟩,
    List.get_mem _ _ _, rfl⟩

/-- Witness for C9: the city method at a concrete input equals the builder
with the city category. -/
theorem image_category_funnel_spec_witness :
    Image.dispatch "city" 0 none none none =
      Image.imageUrl 0 none none (some "city") none none :=
  (image_category_funnel_spec 0 none none none).1 "city" (by decide)

set_option maxRecDepth 100000 in
/-- C10: `imageUrl` substitutes 640 and 480 for an omitted or falsy width or
height, uses the https scheme exactly when the https flag is strictly true
and http otherwise, inserts the category segment exactly when a category is
given, and appends the numeric query exactly when randomize is truthy;
`dataUri` applies no such defaults: with width and height omitted its encoded
svg carries the text undefined in the width and height attributes, while it
always opens with the svg data heading and its colour defaults to grey. -/
theorem imageUrl_defaults_and_dataUri_spec (s : Nat) (w h : Option Int)
    (c : Option String) (r : Option Bool) (hs : Option Bool) :
    (Image.imageUrl s none h c r hs = Image.imageUrl s (some 640) h c r hs) ∧
    (Image.imageUrl s (some 0) h c r hs = Image.imageUrl s (some 640) h c r hs) ∧
    (Image.imageUrl s w none c r hs = Image.imageUrl s w (some 480) c r hs) ∧
    (Image.imageUrl s w (some 0) c r hs = Image.imageUrl s w (some 480) c r hs) ∧
    (hs = some true →
      strStarts (Image.imageUrl s w h c r hs).1 "https://placeimg.com/" = true) ∧
    (hs ≠ some true →
      strStarts (Image.imageUrl s w h c r hs).1 "http://placeimg.com/" = true) ∧
    (∀ ctag : String,
      (r = some true →
        (Image.imageUrl s w h (some ctag) r hs).1 =
          (Image.imageUrl s w h none none hs).1 ++ "/" ++ ctag ++ "?" ++
            toString (datatypeNumber s).1 ∧
        (Image.imageUrl s w h none r hs).1 =
          (Image.imageUrl s w h none none hs).1 ++ "?" ++
            toString (datatypeNumber s).1) ∧
      (r ≠ some true →
        (Image.imageUrl s w h (some ctag) r hs).1 =
          (Image.imageUrl s w h none none hs).1 ++ "/" ++ ctag ∧
        (Image.imageUrl s w h none r hs).1 = (Image.imageUrl s w h none none hs).1)) ∧
    (∀ (cw ch : Option Int) (col : String),
      strStarts (Image.dataUri cw ch col) "data:image/svg+xml;charset=UTF-8," = true) ∧
    strContains (Image.dataUri none none) "width%3D%22undefined%22" = true ∧
    strContains (Image.dataUri none none) "height%3D%22undefined%22" = true ∧
    strContains (Image.dataUri none none) "fill%3D%22grey%22" = true := by
  refine ⟨rfl, rfl, rfl, rfl, ?_, ?_, ?_, ?_, by decide, by decide, by decide⟩
  · intro hsx
    subst hsx
    rcases c with _ | ctag <;> rcases r with _ | (_ | _) <;> rfl
  · intro hne
    rcases hs with _ | (_ | _)
    · rcases c with _ | ctag <;> rcases r with _ | (_ | _) <;> rfl
    · rcases c with _ | ctag <;> rcases r with _ | (_ | _) <;> rfl
    · exact absurd rfl hne
  · intro ctag
    constructor
    · intro hr
      subst hr
      exact ⟨rfl, rfl⟩
    · intro hr
      rcases r with _ | (_ | _)
      · exact ⟨rfl, rfl⟩
      · exact ⟨rfl, rfl⟩
      · exact absurd rfl hr
  · intro cw ch col
    rfl

/-- Witness for C10: concrete calls showing the https heading, the category
and query assembly, and the http heading. -/
theorem imageUrl_defaults_and_dataUri_spec_witness :
    strStarts (Image.imageUrl 0 none none none none (some true)).1
        "https://placeimg.com/" = true ∧
    (Image.imageUrl 0 none none (some "cats") (some true) none).1 =
      (Image.imageUrl 0 none none none none none).1 ++ "/" ++ "cats" ++ "?" ++
        toString (datatypeNumber 0).1 ∧
    strStarts (Image.imageUrl 0 none none none none none).1
        "http://placeimg.com/" = true :=
  ⟨(imageUrl_defaults_and_dataUri_spec 0 none none none none (some true)).2.2.2.2.1 rfl,
    (((imageUrl_defaults_and_dataUri_spec 0 none none none (some true)
        none).2.2.2.2.2.2.1 "cats").1 rfl).1,
    (imageUrl_defaults_and_dataUri_spec 0 none none none none
        none).2.2.2.2.2.1 (by decide)⟩
